import Mathlib

/-!
Shallow embedding of `src/sbscorer/flipside/FlipsideApi.py` (class `FlipsideApi`
and the module-level helper `save_csv`), together with theorems settling the
spec claims about the adaptive batch-extraction algorithm.

Modelling conventions:
* A pandas `DataFrame` of transaction rows is a `List Row` (a `Table`); its
  `shape[0]` is `Table.length` and its `shape` is the pair
  `(length, number of columns)`.
* The external ShroomDK client is an oracle: `QueryOutcome` is what one
  `sdk.query(...)` call produces (either the records, or a raised exception
  caught by the `try/except`).
* The recursive retry functions are embedded with an explicit fuel parameter;
  `none` means the fuel ran out, so `∀ fuel, ... = none` states that the
  Python recursion never terminates.
* File-system side effects (`os.makedirs`, `DataFrame.to_csv`) are recorded as
  a list of `FsEvent`s in execution order; `FsEvent.writeCsv p t` models the
  full overwrite `df.to_csv(p, index=False)`.
-/

namespace FlipsideApi

/-- One transaction record, as stored in the result `DataFrame`.  Only the
fields that the extraction core inspects (`from_address`, `to_address`) are
named individually; the remaining columns (hash, timestamp, gas, fee, value)
are carried opaquely so rows stay distinguishable. -/
structure Row where
  tx_hash : String
  from_address : String
  to_address : String
  deriving DecidableEq, Repr

/-- A Result Table: an ordered sequence of transaction rows (a `DataFrame`). -/
abbrev Table := List Row

/-- `self.MAX_ROWS = 1000000` — the hard row cap of the flipside service,
fixed in `__init__` independently of the constructor arguments. -/
def MAX_ROWS : Nat := 1000000

/-- Outcome of one call to the external query client `self.sdk.query(...)`:
either it returns a record set, or it raises (network error, service error,
malformed response), which the `try/except` in `execute_query_page` catches. -/
inductive QueryOutcome where
  | ok (records : List Row)
  | err (msg : String)
  deriving DecidableEq, Repr

/-- `execute_query_page(sql, page_number)` (lines 59-73).  The result is the
returned table together with the lines printed (the log): on an exception the
code prints the error and the query text and returns an empty `DataFrame`;
on success it returns `pd.DataFrame(query_result_set.records)` and prints
nothing.  The client call itself is abstracted by `outcome`. -/
def execute_query_page (sql : String) (outcome : QueryOutcome) : Table × List String :=
  match outcome with
  | .err msg => ([], [msg, sql])
  | .ok records => (records, [])

/-- The page-indexed fetcher the Paginator drives: page `p` yields the table
part of `execute_query_page sql (client p)`. -/
def pageFetcher (sql : String) (client : Nat → QueryOutcome) : Nat → Table :=
  fun p => (execute_query_page sql (client p)).1

/-- The `while df_size == self.PAGE_SIZE` loop of `execute_query`
(lines 46-52), fuel-bounded.  State: current `page_number` and the
accumulated `list_df`.  Each iteration fetches the page, increments the page
number, appends the page to the list, and re-tests the most recent page's row
count against `PAGE_SIZE`.  `none` means the fuel ran out before a short page
appeared. -/
def executeQueryLoop (pageSize : Nat) (fetch : Nat → Table) :
    Nat → Nat → List Table → Option (List Table)
  | 0, _, _ => none
  | fuel + 1, pageNumber, acc =>
    let df := fetch pageNumber
    let acc := acc ++ [df]
    if df.length == pageSize then
      executeQueryLoop pageSize fetch fuel (pageNumber + 1) acc
    else
      some acc

/-- `execute_query(sql)` (lines 44-57).  Runs the pagination loop starting at
`page_number = 1` with an empty `list_df` (the loop body always runs at least
once because `df_size` is initialised to `PAGE_SIZE`), concatenates the pages
with `pd.concat` (= `List.join` in fetch order), and pairs the result with
the truncation-warning flag `df.shape[0] == self.MAX_ROWS`. -/
def execute_query (pageSize : Nat) (fetch : Nat → Table) (fuel : Nat) :
    Option (Table × Bool) :=
  match executeQueryLoop pageSize fetch fuel 1 [] with
  | none => none
  | some list_df =>
    let df := list_df.flatten
    some (df, df.length == MAX_ROWS)

/-- In Python, `==` between a tuple and an `int` is always `False` (both
`tuple.__eq__` and `int.__eq__` return `NotImplemented`, and `==` then falls
back to identity-based inequality).  This models the comparison
`df.shape == self.MAX_ROWS` on line 94, where `df.shape` is the pair
`(row count, column count)` and `self.MAX_ROWS` is the integer 1000000. -/
def pyTupleEqInt (_shape : Nat × Nat) (_n : Nat) : Bool :=
  false

/-- The batch-failure test of `extract_transactions_net` line 94:
`df.shape[0] == 0 or df.shape == self.MAX_ROWS`, for a table `df` whose
`DataFrame` has `ncols` columns. -/
def batch_failed (df : Table) (ncols : Nat) : Bool :=
  (df.length == 0) || pyTupleEqInt (df.length, ncols) MAX_ROWS

/-- What `extract_transactions_net` does with one batch: hand the index range
to the Range Splitter (`extract_transactions_rec`), or hand the table and the
address slice to the Address Partitioner (`export_address`). -/
inductive BatchAction where
  | split (s e : Nat)
  | exportTo (s e : Nat) (df : Table)
  deriving DecidableEq, Repr

/-- The per-batch routing of `extract_transactions_net` (lines 92-99): if the
failure test fires, the batch's range goes to `extract_transactions_rec` and
`df` is discarded; otherwise `df` and the slice go to `export_address`. -/
def batch_route (df : Table) (ncols s e : Nat) : BatchAction :=
  if batch_failed df ncols then .split s e else .exportTo s e df

/-- The batch count of `extract_transactions_net` (lines 84-86):
`q, r = divmod(len_address, MAX_ADDRESS); if r != 0: q += 1`. -/
def numBatches (lenAddress maxAddress : Nat) : Nat :=
  let q := lenAddress / maxAddress
  let r := lenAddress % maxAddress
  if r ≠ 0 then q + 1 else q

/-- The index interval actually covered by batch `i`: the slice
`array_address[i*M : (i+1)*M]`, whose Python slicing clamps the end to the
list length `L`. -/
def batch_interval (L M i : Nat) : Finset Nat :=
  Finset.Ico (i * M) (min ((i + 1) * M) L)

/-- The whole batch loop of `extract_transactions_net` (lines 87-99), as the
list of batch actions in execution order.  `query s e` abstracts
`self.get_transactions(array_address[s:e], network)` (the query build plus
the paginated execution), and `ncols` the column count of the resulting
`DataFrame`. -/
def extract_transactions_net (query : Nat → Nat → Table) (ncols L M : Nat) :
    List BatchAction :=
  (List.range (numBatches L M)).map (fun i =>
    batch_route (query (i * M) ((i + 1) * M)) ncols (i * M) ((i + 1) * M))

mutual

/-- `extract_transactions_rec` (lines 152-158), fuel-bounded.  Computes
`end_first_slice = (start_index + end_index) // 2` and runs
`extract_transactions_between_rec` on the left half and then on the right
half.  The result is the list of `(start, end, table)` export events in
execution order; `none` means the fuel ran out. -/
def extract_transactions_rec (query : Nat → Nat → Table) :
    Nat → Nat → Nat → Option (List (Nat × Nat × Table))
  | 0, _, _ => none
  | fuel + 1, s, e =>
    let mid := (s + e) / 2
    match extract_transactions_between_rec query fuel s mid with
    | none => none
    | some l1 =>
      match extract_transactions_between_rec query fuel mid e with
      | none => none
      | some l2 => some (l1 ++ l2)

/-- `extract_transactions_between_rec` (lines 160-171), fuel-bounded.  Queries
the sub-range; on zero rows it unconditionally recurses into
`extract_transactions_rec`, otherwise it exports the table for the slice. -/
def extract_transactions_between_rec (query : Nat → Nat → Table) :
    Nat → Nat → Nat → Option (List (Nat × Nat × Table))
  | 0, _, _ => none
  | fuel + 1, s, e =>
    let df := query s e
    if df.length == 0 then
      extract_transactions_rec query fuel s e
    else
      some [(s, e, df)]

end

/-- `get_string_address` (lines 173-179): concatenate `LOWER('{add}'),` for
each address, then strip the final character (`lower_str[:-1]`, which on the
empty string yields the empty string). -/
def get_string_address (array_address : List String) : String :=
  let lower_str := array_address.foldl
    (fun acc add => acc ++ "LOWER(\x27" ++ add ++ "\x27),") ""
  lower_str.dropRight 1

/-- A file-system side effect: `os.makedirs(path)` or the full overwrite
`df.to_csv(path, index=False)`. -/
inductive FsEvent where
  | makedirs (path : String)
  | writeCsv (path : String) (df : Table)
  deriving DecidableEq, Repr

/-- `os.path.join` on this platform. -/
def pathJoin (a b : String) : String :=
  a ++ "/" ++ b

/-- Module-level `save_csv(df, path_to_export, csv_file)` (lines 8-11): create
the directory when `os.path.exists` is false, then overwrite `csv_file` with
`df`.  `fsExists` abstracts the file-system state probed by
`os.path.exists`. -/
def save_csv (fsExists : String → Bool) (df : Table)
    (path_to_export csv_file : String) : List FsEvent :=
  (if fsExists path_to_export then [] else [.makedirs path_to_export]) ++
    [.writeCsv csv_file df]

/-- The row filter of `export_address` line 143-144:
`df[np.logical_or(df.from_address == address, df.to_address == address)]`. -/
def address_rows (df : Table) (address : String) : Table :=
  df.filter (fun r => r.from_address == address || r.to_address == address)

/-- `export_address(df, np_address, extract_dir, network)` (lines 120-150), as
the list of file-system events it performs, in order.  For each address the
matching rows are selected; when that subset is non-empty it is saved to
`extract_dir/network/{address}_tx.csv` via `save_csv`, and otherwise nothing
happens for that address. -/
def export_address (fsExists : String → Bool) (df : Table)
    (np_address : List String) (extract_dir network : String) : List FsEvent :=
  np_address.flatMap (fun address =>
    if 0 < (address_rows df address).length then
      save_csv fsExists (address_rows df address)
        (pathJoin extract_dir network)
        (pathJoin (pathJoin extract_dir network) (address ++ "_tx.csv"))
    else
      [])

/-- A Python-level exception surfaced to the caller. -/
inductive PyExc where
  | exception (msg : String)
  | unboundLocalError (var : String)
  deriving DecidableEq, Repr

/-- Result of a Python call: a returned value, or a raised exception. -/
inductive PyResult (α : Type) where
  | ok (val : α)
  | raised (exc : PyExc)
  deriving DecidableEq, Repr

/-- The `LIMIT` fragment computed by every query builder:
`f"LIMIT {limit}"` when `limit != 0`, else the empty string. -/
def string_limit_of (limit : Nat) : String :=
  if limit ≠ 0 then "LIMIT " ++ toString limit else ""

/-- The f-string template of `get_cross_chain_info_sql_query` (lines 325-330),
with the interpolated `table_name`, address list and limit fragment. -/
def cross_chain_sql (table_name str_list_add string_limit : String) : String :=
  "\n                SELECT *\n                FROM " ++ table_name ++
  "\n                WHERE ADDRESS IN (" ++ str_list_add ++
  ")\n                " ++ string_limit ++ ";\n                "

/-- `get_cross_chain_info_sql_query(array_address, info_type, limit)`
(lines 312-331).  For `info_type` `"label"` or `"tag"` the table name is
assigned and the query text returned.  In the `else` branch the statement
`Exception("Invalid info type")` merely constructs an exception object
without raising it, so execution continues; the local `table_name` was never
assigned, and evaluating the f-string on line 325 therefore raises
`UnboundLocalError` for `table_name`, not the constructed exception. -/
def get_cross_chain_info_sql_query (array_address : List String)
    (info_type : String) (limit : Nat) : PyResult String :=
  let str_list_add := get_string_address array_address
  if info_type == "label" then
    .ok (cross_chain_sql "crosschain.address_labels" str_list_add
      (string_limit_of limit))
  else if info_type == "tag" then
    .ok (cross_chain_sql "crosschain.address_tags" str_list_add
      (string_limit_of limit))
  else
    .raised (.unboundLocalError "table_name")

/-- `get_eth_transactions_sql_query` (lines 181-201): the ethereum query
template with the address list embedded in both `IN` clauses. -/
def get_eth_transactions_sql_query (array_address : List String)
    (limit : Nat) : String :=
  let str_list_add := get_string_address array_address
  let string_limit := string_limit_of limit
  "\n                SELECT TX_HASH,\n                BLOCK_TIMESTAMP,\n                FROM_ADDRESS,\n                TO_ADDRESS,\n                GAS_LIMIT,\n                GAS_USED,\n                TX_FEE,\n                ETH_VALUE\n                FROM ethereum.core.fact_transactions\n                WHERE FROM_ADDRESS IN (" ++
  str_list_add ++ ")\n                OR TO_ADDRESS IN (" ++ str_list_add ++
  ")\n                " ++ string_limit ++ ";\n                "

/-! Concrete fixtures used to instantiate the theorems below. -/

/-- A concrete transaction row. -/
def wrow : Row := ⟨"0xhash1", "0xaaa", "0xbbb"⟩

/-- A concrete page fetcher: page 1 is a full page of size 1, page 2 is
empty. -/
def wfetch : Nat → Table := fun p => if p = 1 then [wrow] else []

/-- A concrete table holding the single row `wrow`. -/
def wdf : Table := [wrow]

/-- A concrete file-system state in which no path exists yet. -/
def wfsExists : String → Bool := fun _ => false

end FlipsideApi

namespace FlipsideApi

lemma rec_succ (query : Nat → Nat → Table) (fuel s e : Nat) :
    extract_transactions_rec query (fuel + 1) s e =
      (extract_transactions_between_rec query fuel s ((s + e) / 2)).bind
        (fun l1 =>
          (extract_transactions_between_rec query fuel ((s + e) / 2) e).map
            (fun l2 => l1 ++ l2)) := by
  cases h1 : extract_transactions_between_rec query fuel s ((s + e) / 2) with
  | none => simp [extract_transactions_rec, h1]
  | some l1 =>
    cases h2 : extract_transactions_between_rec query fuel ((s + e) / 2) e with
    | none => simp [extract_transactions_rec, h1, h2]
    | some l2 => simp [extract_transactions_rec, h1, h2]

lemma between_rec_empty_step (query : Nat → Nat → Table) (fuel s e : Nat)
    (h : query s e = []) :
    extract_transactions_between_rec query (fuel + 1) s e =
      extract_transactions_rec query fuel s e := by
  simp [extract_transactions_between_rec, h]

lemma between_rec_nonempty_step (query : Nat → Nat → Table) (fuel s e : Nat)
    (h : query s e ≠ []) :
    extract_transactions_between_rec query (fuel + 1) s e =
      some [(s, e, query s e)] := by
  simp [extract_transactions_between_rec, List.length_eq_zero, h]

lemma degenerate_range_stuck (query : Nat → Nat → Table) (s : Nat)
    (h : query s s = []) (fuel : Nat) :
    extract_transactions_between_rec query fuel s s = none ∧
      extract_transactions_rec query fuel s s = none := by
  induction fuel with
  | zero => exact ⟨rfl, rfl⟩
  | succ n ih =>
    have hmid : (s + s) / 2 = s := by omega
    refine ⟨?_, ?_⟩
    · rw [between_rec_empty_step query n s s h]
      exact ih.2
    · rw [rec_succ, hmid, ih.1]
      rfl

lemma single_range_stuck (query : Nat → Nat → Table) (s : Nat)
    (h0 : query s s = []) (h1 : query s (s + 1) = []) (fuel : Nat) :
    extract_transactions_between_rec query fuel s (s + 1) = none ∧
      extract_transactions_rec query fuel s (s + 1) = none := by
  induction fuel with
  | zero => exact ⟨rfl, rfl⟩
  | succ n ih =>
    have hmid : (s + (s + 1)) / 2 = s := by omega
    refine ⟨?_, ?_⟩
    · rw [between_rec_empty_step query n s (s + 1) h1]
      exact ih.2
    · rw [rec_succ, hmid, (degenerate_range_stuck query s h0 n).1]
      rfl

lemma executeQueryLoop_run (pageSize : Nat) (fetch : Nat → Table) (N : Nat)
    (hshort : (fetch N).length < pageSize) :
    ∀ (n fuel j : Nat) (acc : List Table), j + n = N → n < fuel →
      (∀ k, j ≤ k → k < N → (fetch k).length = pageSize) →
      executeQueryLoop pageSize fetch fuel j acc =
        some (acc ++ (List.range' j (n + 1)).map fetch) := by
  intro n
  induction n with
  | zero =>
    intro fuel j acc hj hfuel hfull
    obtain ⟨f, rfl⟩ : ∃ f, fuel = f + 1 := ⟨fuel - 1, by omega⟩
    have hj' : j = N := by omega
    subst hj'
    have hne : ((fetch j).length == pageSize) = false := by
      simp only [beq_eq_false_iff_ne, ne_eq]
      omega
    simp [executeQueryLoop, hne]
  | succ n ih =>
    intro fuel j acc hj hfuel hfull
    obtain ⟨f, rfl⟩ : ∃ f, fuel = f + 1 := ⟨fuel - 1, by omega⟩
    have hjN : j < N := by omega
    have hfullj : (fetch j).length = pageSize := hfull j (Nat.le_refl j) hjN
    have heq : ((fetch j).length == pageSize) = true := by
      simp [hfullj]
    rw [executeQueryLoop]
    simp only [heq, if_true]
    rw [ih f (j + 1) (acc ++ [fetch j]) (by omega) (by omega)
      (fun k hk1 hk2 => hfull k (by omega) hk2)]
    simp [List.range'_succ]

lemma numBatches_eq_ceil (L M : Nat) (hM : 0 < M) :
    numBatches L M = (L + M - 1) / M := by
  unfold numBatches
  rcases eq_or_ne (L % M) 0 with h | h
  · rw [if_neg (by simp [h])]
    have hd : L / M * M = L := Nat.div_mul_cancel (Nat.dvd_of_mod_eq_zero h)
    have h1 : L + M - 1 = M * (L / M) + (M - 1) := by
      rw [Nat.mul_comm]
      omega
    rw [h1, Nat.mul_add_div hM,
      Nat.div_eq_of_lt (show M - 1 < M by omega)]
    omega
  · rw [if_pos h]
    have hd : L / M * M + L % M = L := Nat.div_add_mod' L M
    have hr : L % M < M := Nat.mod_lt _ hM
    have h1 : L + M - 1 = M * (L / M + 1) + (L % M - 1) := by
      have : M * (L / M + 1) = L / M * M + M := by ring
      omega
    rw [h1, Nat.mul_add_div hM,
      Nat.div_eq_of_lt (show L % M - 1 < M by omega)]

lemma div_lt_numBatches (L M x : Nat) (hM : 0 < M) (hx : x < L) :
    x / M < numBatches L M := by
  unfold numBatches
  have hd : L / M * M + L % M = L := Nat.div_add_mod' L M
  rcases eq_or_ne (L % M) 0 with h | h
  · rw [if_neg (by simp [h])]
    rw [Nat.div_lt_iff_lt_mul hM]
    omega
  · rw [if_pos h]
    rw [Nat.div_lt_iff_lt_mul hM]
    have : (L / M + 1) * M = L / M * M + M := by ring
    have hr : L % M < M := Nat.mod_lt _ hM
    omega

lemma batch_interval_disjoint_of_lt (L M i j : Nat) (hij : i < j) :
    Disjoint (batch_interval L M i) (batch_interval L M j) := by
  unfold batch_interval
  rw [Finset.disjoint_left]
  intro x hx hx'
  rw [Finset.mem_Ico] at hx hx'
  have h1 : x < (i + 1) * M := lt_of_lt_of_le hx.2 (min_le_left _ _)
  have h2 : (i + 1) * M ≤ j * M := Nat.mul_le_mul_right M (by omega)
  omega

lemma batch_interval_union (L M : Nat) (hM : 0 < M) :
    (Finset.range (numBatches L M)).biUnion (batch_interval L M) =
      Finset.Ico 0 L := by
  ext x
  simp only [Finset.mem_biUnion, Finset.mem_range, batch_interval,
    Finset.mem_Ico, lt_min_iff, Nat.zero_le, true_and]
  constructor
  · rintro ⟨i, _, _, _, h3⟩
    exact h3
  · intro hx
    refine ⟨x / M, div_lt_numBatches L M x hM hx, ?_, ?_, hx⟩
    · exact Nat.div_mul_le_self x M
    · have h4 : x / M * M + x % M = x := Nat.div_add_mod' x M
      have h5 : x % M < M := Nat.mod_lt _ hM
      have h6 : (x / M + 1) * M = x / M * M + M := by ring
      omega

/-- Claim C4: `execute_query_page` never propagates an exception: on any
failure of the query client it logs the error and the query text and returns
an empty Result Table, and on success it returns the records of the query
result as a table (logging nothing). -/
theorem execute_query_page_total_contract :
    ∀ (sql msg : String) (records : List Row),
      execute_query_page sql (.err msg) = ([], [msg, sql]) ∧
      execute_query_page sql (.ok records) = (records, []) :=
  fun _ _ _ => ⟨rfl, rfl⟩

/-- Claim C3: `execute_query` fetches pages starting at page number 1 and
incrementing by 1, continues exactly while the most recent page's row count
equals the page size, stops at the first page whose row count is strictly
less than the page size (including a count of 0), and returns the
concatenation of all fetched pages 1..N in fetch order with no
re-sorting. -/
theorem execute_query_paginates (pageSize : Nat) (fetch : Nat → Table)
    (N fuel : Nat) (hN : 1 ≤ N) (hfuel : N ≤ fuel)
    (hfull : ∀ k, 1 ≤ k → k < N → (fetch k).length = pageSize)
    (hshort : (fetch N).length < pageSize) :
    execute_query pageSize fetch fuel =
      some (((List.range' 1 N).map fetch).flatten,
        ((List.range' 1 N).map fetch).flatten.length == MAX_ROWS) := by
  have h := executeQueryLoop_run pageSize fetch N hshort (N - 1) fuel 1 []
    (by omega) (by omega) (fun k hk1 hk2 => hfull k hk1 hk2)
  have hN' : N - 1 + 1 = N := by omega
  rw [hN'] at h
  rw [execute_query, h]
  simp

/-- Witness for claim C3: page size 1, page 1 full, page 2 empty; the result
is the concatenation of pages 1 and 2. -/
theorem execute_query_paginates_witness :
    execute_query 1 wfetch 2 = some ([wrow], false) := by
  have h := execute_query_paginates 1 wfetch 2 2 (by omega) (by omega)
    (fun k hk1 hk2 => by
      have hk : k = 1 := by omega
      subst hk
      rfl)
    (by decide)
  rw [h]
  rfl

/-- Claim C8: the possible-truncation warning flag of `execute_query` is set
if and only if the accumulated row count of the returned Result Table equals
the hard row cap `MAX_ROWS = 1000000`; for any strictly smaller total it is
not set. -/
theorem execute_query_warning_iff_cap (pageSize fuel : Nat)
    (fetch : Nat → Table) (df : Table) (warn : Bool)
    (h : execute_query pageSize fetch fuel = some (df, warn)) :
    (warn = true ↔ df.length = MAX_ROWS) ∧ MAX_ROWS = 1000000 := by
  refine ⟨?_, rfl⟩
  rw [execute_query] at h
  cases hl : executeQueryLoop pageSize fetch fuel 1 [] with
  | none => rw [hl] at h; exact absurd h (by simp)
  | some list_df =>
    rw [hl] at h
    simp only [Option.some.injEq, Prod.mk.injEq] at h
    obtain ⟨h1, h2⟩ := h
    subst h1
    rw [← h2]
    simp

/-- Witness for claim C8: a run whose total row count is 1, strictly below
the cap, carries no warning. -/
theorem execute_query_warning_iff_cap_witness :
    ((false = true) ↔ (wdf.length = MAX_ROWS)) ∧ MAX_ROWS = 1000000 :=
  execute_query_warning_iff_cap 1 2 wfetch wdf false rfl

/-- Claim C1 (code bug): a batch whose Result Table has exactly
`MAX_ROWS = 1000000` rows is NOT treated as failed by
`extract_transactions_net`: the test on line 94 compares the shape tuple
`df.shape` with the integer `MAX_ROWS`, which is always `False` in Python, so
the capped batch is handed to `export_address` instead of
`extract_transactions_rec`. -/
theorem capped_batch_routed_to_export :
    batch_failed (List.replicate MAX_ROWS wrow) 8 = false ∧
    batch_route (List.replicate MAX_ROWS wrow) 8 0 100 =
      BatchAction.exportTo 0 100 (List.replicate MAX_ROWS wrow) := by
  have h : batch_failed (List.replicate MAX_ROWS wrow) 8 = false := by
    unfold batch_failed pyTupleEqInt
    rw [List.length_replicate]
    rfl
  refine ⟨h, ?_⟩
  unfold batch_route
  rw [h]
  rfl

/-- Claim C9 (code bug): for an `info_type` other than `"label"` or `"tag"`,
`get_cross_chain_info_sql_query` does not return query text, but the
exception it surfaces is `UnboundLocalError` for `table_name` — the
statement `Exception("Invalid info type")` constructs the exception object
without raising it. -/
theorem cross_chain_invalid_info_type_unbound_local :
    get_cross_chain_info_sql_query ["0xabc"] "address" 0 =
      PyResult.raised (.unboundLocalError "table_name") ∧
    get_cross_chain_info_sql_query ["0xabc"] "address" 0 ≠
      PyResult.raised (.exception "Invalid info type") := by
  exact ⟨rfl, by decide⟩

lemma tx_file_inj (extract_dir network a b : String)
    (h : pathJoin (pathJoin extract_dir network) (a ++ "_tx.csv") =
      pathJoin (pathJoin extract_dir network) (b ++ "_tx.csv")) : a = b := by
  unfold pathJoin at h
  have hd := congrArg String.data h
  simp only [String.data_append, List.append_assoc] at hd
  have h1 := List.append_cancel_left hd
  have h2 := List.append_cancel_left h1
  have h3 := List.append_cancel_left h2
  have h4 := List.append_cancel_left h3
  have h5 := List.append_cancel_right h4
  cases a
  cases b
  simp_all

/-- Claim C7: for each address in an `export_address` call, the rows selected
are exactly those whose from-address or to-address equals the address; when
that subset is non-empty the subset is written (as a full overwrite) to
`extract_dir/network/{address}_tx.csv` and the directory
`extract_dir/network` is created when it does not exist; when the subset is
empty, no write event for that address's file occurs at all. -/
theorem export_address_per_address (fsExists : String → Bool) (df : Table)
    (np_address : List String) (extract_dir network address : String)
    (hmem : address ∈ np_address) :
    (0 < (address_rows df address).length →
      FsEvent.writeCsv
          (pathJoin (pathJoin extract_dir network) (address ++ "_tx.csv"))
          (address_rows df address) ∈
        export_address fsExists df np_address extract_dir network ∧
      (fsExists (pathJoin extract_dir network) = false →
        FsEvent.makedirs (pathJoin extract_dir network) ∈
          export_address fsExists df np_address extract_dir network)) ∧
    ((address_rows df address).length = 0 →
      ∀ t, FsEvent.writeCsv
          (pathJoin (pathJoin extract_dir network) (address ++ "_tx.csv")) t ∉
        export_address fsExists df np_address extract_dir network) := by
  constructor
  · intro hpos
    constructor
    · unfold export_address
      simp only [List.mem_flatMap]
      refine ⟨address, hmem, ?_⟩
      rw [if_pos hpos]
      unfold save_csv
      simp
    · intro hdir
      unfold export_address
      simp only [List.mem_flatMap]
      refine ⟨address, hmem, ?_⟩
      rw [if_pos hpos]
      unfold save_csv
      rw [if_neg (by simp [hdir])]
      simp
  · intro hzero t ht
    unfold export_address at ht
    simp only [List.mem_flatMap] at ht
    obtain ⟨b, hb, hmemb⟩ := ht
    by_cases hpos : 0 < (address_rows df b).length
    · rw [if_pos hpos] at hmemb
      unfold save_csv at hmemb
      rw [List.mem_append] at hmemb
      rcases hmemb with hmk | hwr
      · split at hmk <;> simp_all
      · simp only [List.mem_singleton, FsEvent.writeCsv.injEq] at hwr
        have hab : address = b := tx_file_inj extract_dir network address b hwr.1
        rw [← hab] at hpos
        omega
    · rw [if_neg hpos] at hmemb
      simp at hmemb

/-- Witness for claim C7: one row involving `0xaaa`, addresses
`["0xaaa", "0xccc"]`: a write and a directory creation occur for `0xaaa`,
and no write occurs for `0xccc`. -/
theorem export_address_per_address_witness :
    FsEvent.writeCsv
        (pathJoin (pathJoin "out" "ethereum") ("0xaaa" ++ "_tx.csv"))
        (address_rows wdf "0xaaa") ∈
      export_address wfsExists wdf ["0xaaa", "0xccc"] "out" "ethereum" ∧
    FsEvent.makedirs (pathJoin "out" "ethereum") ∈
      export_address wfsExists wdf ["0xaaa", "0xccc"] "out" "ethereum" ∧
    FsEvent.writeCsv
        (pathJoin (pathJoin "out" "ethereum") ("0xccc" ++ "_tx.csv")) wdf ∉
      export_address wfsExists wdf ["0xaaa", "0xccc"] "out" "ethereum" := by
  have h1 := export_address_per_address wfsExists wdf ["0xaaa", "0xccc"]
    "out" "ethereum" "0xaaa" (by simp)
  have h2 := export_address_per_address wfsExists wdf ["0xaaa", "0xccc"]
    "out" "ethereum" "0xccc" (by simp)
  have hpos : 0 < (address_rows wdf "0xaaa").length := by decide
  have hzero : (address_rows wdf "0xccc").length = 0 := by decide
  exact ⟨(h1.1 hpos).1, (h1.1 hpos).2 rfl, h2.2 hzero wdf⟩

/-- Claim C5: for an address list of length `L > 0` and batch cap `M`,
`extract_transactions_net` generates exactly `ceil(L/M)` batch ranges, the
`i`-th covering `[i*M, (i+1)*M)` clamped to `L`; the ranges are pairwise
disjoint and their union is exactly `[0, L)`. -/
theorem batch_partition (L M : Nat) (hL : 0 < L) (hM : 0 < M) :
    numBatches L M = (L + M - 1) / M ∧
    (extract_transactions_net (fun _ _ => []) 8 L M).length =
      numBatches L M ∧
    (∀ i j, i ≠ j →
      Disjoint (batch_interval L M i) (batch_interval L M j)) ∧
    (Finset.range (numBatches L M)).biUnion (batch_interval L M) =
      Finset.Ico 0 L := by
  refine ⟨numBatches_eq_ceil L M hM, ?_, ?_, batch_interval_union L M hM⟩
  · simp [extract_transactions_net]
  · intro i j hij
    rcases Nat.lt_or_ge i j with h | h
    · exact batch_interval_disjoint_of_lt L M i j h
    · exact (batch_interval_disjoint_of_lt L M j i (by omega)).symm

/-- Witness for claim C5 at `L = 5`, `M = 2`: three batches covering
`[0, 5)`. -/
theorem batch_partition_witness :
    numBatches 5 2 = (5 + 2 - 1) / 2 ∧
    (Finset.range (numBatches 5 2)).biUnion (batch_interval 5 2) =
      Finset.Ico 0 5 := by
  have h := batch_partition 5 2 (by omega) (by omega)
  exact ⟨h.1, h.2.2.2⟩

/-- Claim C2: whenever a sub-range's query returns zero rows, the retry
recurses unconditionally; and for a single-address range `[s, s+1)` whose
query always returns an empty table, the recursion never terminates (for
every fuel bound the fuel-indexed embedding runs out of fuel). -/
theorem single_address_empty_query_never_terminates
    (query : Nat → Nat → Table) (s : Nat)
    (h0 : query s s = []) (h1 : query s (s + 1) = []) :
    (∀ fuel s' e', query s' e' = [] →
        extract_transactions_between_rec query (fuel + 1) s' e' =
          extract_transactions_rec query fuel s' e') ∧
    ∀ fuel, extract_transactions_between_rec query fuel s (s + 1) = none :=
  ⟨fun fuel s' e' h => between_rec_empty_step query fuel s' e' h,
   fun fuel => (single_range_stuck query s h0 h1 fuel).1⟩

/-- Witness for claim C2 at the concrete always-empty query and `s = 0`. -/
theorem single_address_empty_query_never_terminates_witness :
    (fun _ _ => ([] : Table)) 0 0 = ([] : Table) ∧
    extract_transactions_between_rec (fun _ _ => ([] : Table)) 9 0 1 = none :=
  ⟨rfl,
   (single_address_empty_query_never_terminates
      (fun _ _ => ([] : Table)) 0 rfl rfl).2 9⟩

/-- Claim C6: `extract_transactions_rec` on `[s, e)` computes
`mid = (s + e) / 2` and re-invokes the retry logic on exactly `[s, mid)` and
then `[mid, e)`, which partition `[s, e)`: `s ≤ mid ≤ e`, the two intervals
are disjoint, their union is `[s, e)`, and the left half runs before the
right half (the result is left events followed by right events). -/
theorem rec_bisection_partition (query : Nat → Nat → Table) (fuel s e : Nat)
    (h : s ≤ e) :
    s ≤ (s + e) / 2 ∧ (s + e) / 2 ≤ e ∧
    Finset.Ico s ((s + e) / 2) ∪ Finset.Ico ((s + e) / 2) e =
      Finset.Ico s e ∧
    Disjoint (Finset.Ico s ((s + e) / 2)) (Finset.Ico ((s + e) / 2) e) ∧
    extract_transactions_rec query (fuel + 1) s e =
      (extract_transactions_between_rec query fuel s ((s + e) / 2)).bind
        (fun l1 =>
          (extract_transactions_between_rec query fuel ((s + e) / 2) e).map
            (fun l2 => l1 ++ l2)) := by
  refine ⟨by omega, by omega, ?_, ?_, rec_succ query fuel s e⟩
  · exact Finset.Ico_union_Ico_eq_Ico (by omega) (by omega)
  · exact Finset.Ico_disjoint_Ico_consecutive s ((s + e) / 2) e

/-- Witness for claim C6 at `s = 0`, `e = 3`, fuel 0 and the always-empty
query. -/
theorem rec_bisection_partition_witness :
    extract_transactions_rec (fun _ _ => ([] : Table)) 1 0 3 = none ∧
    Finset.Ico 0 1 ∪ Finset.Ico 1 3 = Finset.Ico 0 3 := by
  have h := rec_bisection_partition (fun _ _ => ([] : Table)) 0 0 3
    (by omega)
  exact ⟨by rw [h.2.2.2.2]; rfl, h.2.2.1⟩

set_option maxRecDepth 8000 in
/-- Claim C10: bisecting a size-one range does not shrink it: for `[s, s+1)`
the midpoint is `s`, so the two recursive calls receive the empty range
`[s, s)` followed by the unchanged range `[s, s+1)`; and the query-text
builder receives the empty string from `get_string_address` for an empty
address slice, producing `IN ()` clauses. -/
theorem single_range_bisection_no_shrink :
    ∀ (query : Nat → Nat → Table) (fuel s : Nat),
      (s + (s + 1)) / 2 = s ∧
      extract_transactions_rec query (fuel + 1) s (s + 1) =
        (extract_transactions_between_rec query fuel s s).bind
          (fun l1 =>
            (extract_transactions_between_rec query fuel s (s + 1)).map
              (fun l2 => l1 ++ l2)) ∧
      get_string_address [] = "" ∧
      get_eth_transactions_sql_query [] 0 =
        "\n                SELECT TX_HASH,\n                BLOCK_TIMESTAMP,\n                FROM_ADDRESS,\n                TO_ADDRESS,\n                GAS_LIMIT,\n                GAS_USED,\n                TX_FEE,\n                ETH_VALUE\n                FROM ethereum.core.fact_transactions\n                WHERE FROM_ADDRESS IN ()\n                OR TO_ADDRESS IN ()\n                ;\n                " := by
  intro query fuel s
  have hmid : (s + (s + 1)) / 2 = s := by omega
  refine ⟨hmid, ?_, rfl, rfl⟩
  rw [rec_succ, hmid]

end FlipsideApi
